import Mathlib

/-!
# ecs-exec: resolution and command assembly

A shallow embedding of `cmd/exec.go` and `cmd/ls.go` of `glassechidna/ecs-exec`.

Conventions of the embedding.

* Go strings are Lean `String`s.  Go compares strings bytewise; on valid UTF-8
  that order is the code-point order Lean uses.  Go's `len(s) > 0` counts bytes
  and Lean's `s.length > 0` counts characters; both say that `s` is not empty.
* A Go function can return, or panic.  `Outcome` records which; its third
  constructor marks an input that leaves the modelled part of Go's
  `text/template` language.
* The AWS SDK is an oracle: a record of functions from a world state and a
  request to a response and a new world state.  Every function that talks to
  the SDK also returns the list of calls it issued, in order.
* SDK pointer fields that the code dereferences unconditionally are plain
  values; `PublicIpAddress`, which the code tests against `nil`, is an `Option`.
-/

namespace EcsExec

/-! ## Outcomes and errors -/

/-- What running a Go function produces. -/
inductive Outcome (α : Type) where
  | returned (a : α)
  | panicked (msg : String)
  | outsideModel
  deriving DecidableEq, Repr

/-- Go `error` values: one made in this package with `errors.New`, or one handed
back by a library (the AWS SDK, `text/template`).  The two never compare equal
in Go, where an `errors.New` value is a fresh pointer. -/
inductive GoError where
  | new (msg : String)
  | library (msg : String)
  deriving DecidableEq, Repr

/-! ## Records of the SDK and of `exec.go` -/

/-- The fields of `ecs.Task` that the code reads. -/
structure Task where
  TaskArn : String
  ContainerInstanceArn : String
  Group : String
  deriving DecidableEq, Repr

/-- The fields of `ec2.Instance` that the code reads. -/
structure Instance where
  InstanceId : String
  PrivateIpAddress : String
  PublicIpAddress : Option String
  deriving DecidableEq, Repr

/-- The record `type PipeParams struct` of `exec.go`. -/
structure PipeParams where
  InstanceArn : String
  InstanceId : String
  PrivateIpAddress : String
  PublicIpAddress : String
  Command : String
  deriving DecidableEq, Repr

/-! ## Library functions used by the code -/

/-- Go `strings.Split(s, sep)` for a one-character separator, on characters. -/
def splitOnChar (sep : Char) : List Char → List (List Char)
  | [] => [[]]
  | c :: cs =>
    if c = sep then [] :: splitOnChar sep cs
    else
      match splitOnChar sep cs with
      | [] => [[c]]
      | f :: fs => (c :: f) :: fs

/-- Go `strings.Split(s, ":")`. -/
def stringsSplitColon (s : String) : List String :=
  (splitOnChar ':' s.data).map String.mk

/-- Go `strings.Join(elems, sep)`. -/
def stringsJoin (elems : List String) (sep : String) : String :=
  sep.intercalate elems

/-! ## The modelled part of `text/template`

Text outside actions is copied.  An action `{{ ... }}` is modelled when its
content is a single field reference: blanks, a dot, an identifier of ASCII
letters, digits and underscores that does not start with a digit, blanks.  Any
other closed action makes the template `outsideModel`.  An action that is never
closed is a parse error in Go whatever it contains. -/

/-- A node of a parsed template. -/
inductive Node where
  | text (s : List Char)
  | field (name : String)
  deriving DecidableEq, Repr

/-- Result of `template.New("pipe").Parse`. -/
inductive Parsed where
  | tree (nodes : List Node)
  | parseError (msg : String)
  | outsideModel
  deriving DecidableEq, Repr

/-- Whether a character may occur in a field name. -/
def isIdentChar (c : Char) : Bool :=
  c.isAlphanum || c = '_'

/-- The field name of an action content `.Name` (blanks already removed). -/
def fieldOfDotted : List Char → Option String
  | '.' :: c :: cs =>
    if (c.isAlpha || c = '_') && cs.all isIdentChar then some (String.mk (c :: cs)) else none
  | _ => none

/-- Drop the blanks at the front of a list of characters. -/
def dropBlanks : List Char → List Char
  | ' ' :: cs => dropBlanks cs
  | cs => cs

/-- The field an action refers to, when the action is a single field reference. -/
def fieldOfAction (content : List Char) : Option String :=
  fieldOfDotted (dropBlanks (dropBlanks content).reverse).reverse

/-- Put one more text character in front of a parsed template. -/
def Parsed.pushChar (c : Char) : Parsed → Parsed
  | .tree (.text s :: ns) => .tree (.text (c :: s) :: ns)
  | .tree ns => .tree (.text [c] :: ns)
  | p => p

/-- Put one more field reference in front of a parsed template. -/
def Parsed.pushField (f : String) : Parsed → Parsed
  | .tree ns => .tree (.field f :: ns)
  | p => p

/-- The lexer and parser.  `action = none` is text state; `action = some acc` is
inside an action whose content so far is `acc` reversed. -/
def parseFrom : Option (List Char) → List Char → Parsed
  | none, [] => .tree []
  | none, '{' :: '{' :: rest => parseFrom (some []) rest
  | none, c :: rest => (parseFrom none rest).pushChar c
  | some _, [] => .parseError "unclosed action"
  | some acc, '}' :: '}' :: rest =>
    match fieldOfAction acc.reverse with
    | some f => (parseFrom none rest).pushField f
    | none => .outsideModel
  | some acc, c :: rest => parseFrom (some (c :: acc)) rest

/-- The call `template.New("pipe").Parse(text)`. -/
def templateParse (text : String) : Parsed :=
  parseFrom none text.data

/-- Field lookup of the template executor on a `PipeParams` value. -/
def PipeParams.lookup (p : PipeParams) (name : String) : Option String :=
  if name = "InstanceArn" then some p.InstanceArn
  else if name = "InstanceId" then some p.InstanceId
  else if name = "PrivateIpAddress" then some p.PrivateIpAddress
  else if name = "PublicIpAddress" then some p.PublicIpAddress
  else if name = "Command" then some p.Command
  else none

/-- The call `tmpl.Execute(&doc, params)`: what has been written to `doc`, and the error
if execution stopped.  Go writes each node to the buffer as it is reached, so
the text before a failing action is already in the buffer. -/
def templateExecute (params : PipeParams) : List Node → String × Option GoError
  | [] => ("", none)
  | .text s :: ns =>
    let r := templateExecute params ns
    (String.mk s ++ r.1, r.2)
  | .field f :: ns =>
    match params.lookup f with
    | some v =>
      let r := templateExecute params ns
      (v ++ r.1, r.2)
    | none => ("", some (.library ("can't evaluate field " ++ f ++ " in type cmd.PipeParams")))

/-! ## `exec.go` -/

/-- The table `var wellKnown` of `exec.go`. -/
def wellKnown : List (String × String) :=
  [("@SSH", "ssh ec2-user@\x7b\x7b.PrivateIpAddress\x7d\x7d \x7b\x7b.Command\x7d\x7d"),
   ("@LKP", "ssh ec2-user@\x7b\x7b.InstanceArn\x7d\x7d \x7b\x7b.Command\x7d\x7d"),
   ("@GOSSM", "gossm -q -i \x7b\x7b.InstanceId\x7d\x7d -- \x7b\x7b.Command\x7d\x7d")]

/-- Go map indexing `wellKnown[key]`: the zero value `""` for an absent key. -/
def wellKnownIndex (key : String) : String :=
  (wellKnown.lookup key).getD ""

/-- The default of the `--pipe` flag, registered in `init`. -/
def pipeFlagDefault : String := "$SSH"

/-- Lines 87-90 of `expandPipeCommand`: replace a well-known alias by its template. -/
def resolvePipe (pipeCmd : String) : String :=
  let wellKnownCmd := wellKnownIndex pipeCmd
  if wellKnownCmd.length > 0 then wellKnownCmd else pipeCmd

/-- Lines 92-105 of `expandPipeCommand`: the parameters handed to the template.
Indexing `bits` past its end is a Go run-time panic. -/
def pipeParams (dockerExecCmd : String) (inst : Instance) (task : Task) : Outcome PipeParams :=
  let bits := stringsSplitColon task.ContainerInstanceArn
  match bits[3]? with
  | none => .panicked "index out of range"
  | some region =>
    match bits[4]? with
    | none => .panicked "index out of range"
    | some accountId =>
      let params : PipeParams :=
        { Command := dockerExecCmd
          InstanceId := inst.InstanceId
          InstanceArn := "arn:aws:ec2:" ++ region ++ ":" ++ accountId ++ ":instance/" ++ inst.InstanceId
          PrivateIpAddress := inst.PrivateIpAddress
          PublicIpAddress := "" }
      match inst.PublicIpAddress with
      | some ip => .returned { params with PublicIpAddress := ip }
      | none => .returned params

/-- Lines 108-114 of `expandPipeCommand`: panic on a parse error, execute into
a buffer, and return the buffer.  The error of `Execute` is assigned and never
read. -/
def renderParsed (params : PipeParams) : Parsed → Outcome String
  | .parseError msg => .panicked msg
  | .outsideModel => .outsideModel
  | .tree tmpl => .returned (templateExecute params tmpl).1

/-- Lines 107-114 of `expandPipeCommand`: parse the template and render it. -/
def renderPipe (pipeCmd : String) (params : PipeParams) : Outcome String :=
  renderParsed params (templateParse pipeCmd)

/-- The function `expandPipeCommand` of `exec.go`. -/
def expandPipeCommand (pipeCmd dockerExecCmd : String) (inst : Instance) (task : Task) :
    Outcome String :=
  let pipeCmd := resolvePipe pipeCmd
  match pipeParams dockerExecCmd inst task with
  | .panicked msg => .panicked msg
  | .outsideModel => .outsideModel
  | .returned params => renderPipe pipeCmd params

/-- The function `dockerExecCmd` of `exec.go`.  The second format string and the
pipeline are Go raw strings: their backslashes are part of the text. -/
def dockerExecCmd (taskArn containerName command : String) : List String :=
  let containerIdCmd :=
    if containerName.length > 0 then
      stringsJoin
        ["docker",
         "ps",
         "--filter label=com.amazonaws.ecs.task-arn=" ++ taskArn,
         "--filter label=com.amazonaws.ecs.container-name=" ++ containerName,
         "--format \x27\x7b\x7b.ID\x7d\x7d\x27"] " "
    else
      stringsJoin
        ["docker",
         "ps",
         "--filter label=com.amazonaws.ecs.task-arn=" ++ taskArn,
         "--format \\\x27\x7b\x7b.Label \\\"com.amazonaws.ecs.container-name\\\"\x7d\x7d \x7b\x7b.ID\x7d\x7d\\\x27",
         "\\| sort \\| awk \\\x27\x7bprint \\$2\x7d\\\x27 \\| head -n1"] " "
  ["docker", "exec", "-i", "$\\(" ++ containerIdCmd ++ "\\)", command]

/-! ## The SDK as an oracle -/

/-- The ECS calls the code makes, with the request fields it sets. -/
inductive Call where
  | listTasks (cluster serviceName : String)
  | describeTasks (cluster : String) (tasks : List String)
  deriving DecidableEq, Repr

/-- The ECS API: each call maps the world state and the request to a response,
or the message of an SDK error, and the next world state. -/
structure Ecs (σ : Type) where
  ListTasks : σ → String → String → Except String (List String) × σ
  DescribeTasks : σ → String → List String → Except String (List Task) × σ

/-- A run of a function that talks to the SDK: what it produced, the calls it
issued in order, and the world state it left. -/
structure Run (σ α : Type) where
  outcome : Outcome α
  calls : List Call
  state : σ

/-- Lines 166-171 of `getTask`: the sentinel and the scan for a smaller ARN. -/
def selectTaskId (taskArns : List String) : String :=
  taskArns.foldl (fun taskId task => if task < taskId then task else taskId) "z"

/-- Lines 176-183 of `getTask`: describe one task and return the first result.
Indexing an empty `resp.Tasks` is a Go run-time panic. -/
def getTask.describe {σ : Type} (api : Ecs σ) (s : σ) (calls : List Call)
    (cluster taskId : String) : Run σ (Except GoError Task) :=
  let calls := calls ++ [.describeTasks cluster [taskId]]
  match api.DescribeTasks s cluster [taskId] with
  | (.error err, s') => ⟨.returned (.error (.library err)), calls, s'⟩
  | (.ok [], s') => ⟨.panicked "index out of range", calls, s'⟩
  | (.ok (task :: _), s') => ⟨.returned (.ok task), calls, s'⟩

/-- The function `getTask` of `exec.go`. -/
def getTask {σ : Type} (api : Ecs σ) (s : σ) (cluster service taskId : String) :
    Run σ (Except GoError Task) :=
  if service.length > 0 then
    match api.ListTasks s cluster service with
    | (.error err, s') => ⟨.returned (.error (.library err)), [.listTasks cluster service], s'⟩
    | (.ok taskArns, s') =>
      getTask.describe api s' [.listTasks cluster service] cluster (selectTaskId taskArns)
  else if taskId.length = 0 then
    ⟨.returned (.error (.new "must provide at least one of ecs service or task id")), [], s⟩
  else
    getTask.describe api s [] cluster taskId

/-! ## `ls.go` -/

/-- Lines 52-55 of `describeAllTasks`: the end of the next page. -/
def describeAllTasks.highIndex (offset len : Nat) : Nat :=
  let highIndex := offset + 100
  if highIndex > len then len else highIndex

/-- The `for` loop of `describeAllTasks`.  A slice expression whose low bound
exceeds its high bound is a Go run-time panic. -/
def describeAllTasks.loop {σ : Type} (api : Ecs σ) (cluster : String)
    (allTaskArns : List String) (offset : Nat) (allTasks : List Task) (calls : List Call)
    (s : σ) : Run σ (Except GoError (List Task)) :=
  if offset = describeAllTasks.highIndex offset allTaskArns.length then
    ⟨.returned (.ok allTasks), calls, s⟩
  else if describeAllTasks.highIndex offset allTaskArns.length < offset then
    ⟨.panicked "slice bounds out of range", calls, s⟩
  else
    let highIndex := describeAllTasks.highIndex offset allTaskArns.length
    let arnsPage := (allTaskArns.take highIndex).drop offset
    let calls := calls ++ [.describeTasks cluster arnsPage]
    match api.DescribeTasks s cluster arnsPage with
    | (.error err, s') => ⟨.returned (.error (.library err)), calls, s'⟩
    | (.ok tasks, s') =>
      describeAllTasks.loop api cluster allTaskArns highIndex (allTasks ++ tasks) calls s'
termination_by allTaskArns.length - offset
decreasing_by
  rename_i h1 h2
  unfold describeAllTasks.highIndex at h1 h2 ⊢
  simp only at h1 h2 ⊢
  by_cases hc : offset + 100 > allTaskArns.length
  · simp only [hc, if_true] at h1 h2 ⊢
    omega
  · simp only [hc, if_false] at h1 h2 ⊢
    omega

/-- The function `describeAllTasks` of `ls.go`; `input` is the cluster and the
task ARNs. -/
def describeAllTasks {σ : Type} (api : Ecs σ) (s : σ) (cluster : String)
    (tasks : List String) : Run σ (Except GoError (List Task)) :=
  describeAllTasks.loop api cluster tasks 0 [] [] s

/-- The responses of the oracle to a sequence of `DescribeTasks` batches, each
call made in the world state the previous call left.  A failed call contributes
no task. -/
def describeResponses {σ : Type} (api : Ecs σ) (cluster : String) :
    σ → List (List String) → List (List Task)
  | _, [] => []
  | s, batch :: batches =>
    match api.DescribeTasks s cluster batch with
    | (.ok tasks, s') => tasks :: describeResponses api cluster s' batches
    | (.error _, s') => [] :: describeResponses api cluster s' batches

/-! ## Templates written from their nodes

The reference rendering of the specification: every placeholder is replaced by
the value of its parameter, text is kept. -/

/-- The template text of a node. -/
def Node.source : Node → List Char
  | .text s => s
  | .field f => '{' :: '{' :: '.' :: (f.data ++ ['}', '}'])

/-- The template text of a list of nodes. -/
def templateSource : List Node → List Char
  | [] => []
  | n :: ns => n.source ++ templateSource ns

/-- A node the specification speaks about: text without an opening brace, or
one of the five placeholders. -/
def Node.plain : Node → Bool
  | .text s => !s.contains '{'
  | .field f =>
    ["InstanceArn", "InstanceId", "PrivateIpAddress", "PublicIpAddress", "Command"].contains f

/-- What the specification expects in place of a node. -/
def Node.expected (p : PipeParams) : Node → String
  | .text s => String.mk s
  | .field "InstanceArn" => p.InstanceArn
  | .field "InstanceId" => p.InstanceId
  | .field "PrivateIpAddress" => p.PrivateIpAddress
  | .field "PublicIpAddress" => p.PublicIpAddress
  | .field "Command" => p.Command
  | .field _ => ""

/-- What the specification expects a template to render as. -/
def expectedRendering (p : PipeParams) : List Node → String
  | [] => ""
  | n :: ns => n.expected p ++ expectedRendering p ns

/-- Put a string in front of what a function returned. -/
def Outcome.prepend (pre : String) : Outcome String → Outcome String
  | .returned out => .returned (pre ++ out)
  | o => o

/-- A template with two placeholders, one of them the public address. -/
def sampleNodes : List Node :=
  [.text "nc ".data, .field "PublicIpAddress", .text " 22 # ".data, .field "Command"]

/-! ## Sample inputs -/

/-- An instance without a public address. -/
def sampleInstance : Instance :=
  { InstanceId := "i-00001234abcdef", PrivateIpAddress := "10.0.0.5", PublicIpAddress := none }

/-- A task on a container instance of account `111111111111` in `us-east-1`. -/
def sampleTask : Task :=
  { TaskArn := "arn:aws:ecs:us-east-1:111111111111:task/0a1b"
    ContainerInstanceArn := "arn:aws:ecs:us-east-1:111111111111:container-instance/9f8e"
    Group := "service:web" }

/-- The task record the sample oracles return for an ARN. -/
def taskOfArn (arn : String) : Task :=
  { TaskArn := arn
    ContainerInstanceArn := "arn:aws:ecs:us-east-1:111111111111:container-instance/9f8e"
    Group := "service:web" }

/-- An oracle whose service runs the tasks `arns` and which describes every
task it is asked about. -/
def listingEcs (arns : List String) : Ecs Unit :=
  { ListTasks := fun _ _ _ => (.ok arns, ())
    DescribeTasks := fun _ _ tasks => (.ok (tasks.map taskOfArn), ()) }

/-- The task ARNs of a service, not in order. -/
def sampleArns : List String :=
  ["arn:aws:ecs:us-east-1:111111111111:task/b", "arn:aws:ecs:us-east-1:111111111111:task/a"]

/-- An oracle that knows no task: lists and descriptions succeed and are empty. -/
def emptyEcs : Ecs Unit :=
  { ListTasks := fun _ _ _ => (.ok [], ())
    DescribeTasks := fun _ _ _ => (.ok [], ()) }

/-! ## Theorems -/

theorem length_pos_iff_ne_empty (s : String) : s.length > 0 ↔ s ≠ "" := by
  rw [gt_iff_lt, Nat.pos_iff_ne_zero, ne_eq, ne_eq, not_iff_not]
  constructor
  · intro h
    apply String.ext
    exact List.length_eq_zero.mp h
  · intro h
    subst h
    rfl

/-- C4: `dockerExecCmd` returns the five tokens `docker`, `exec`, `-i`, the
escaped command substitution `$\(` inner `\)` and the command unchanged.  The
inner command is `docker ps` filtered on the task-ARN label; for a non-empty
container name it also filters on the container-name label and formats
`'{{.ID}}'`; for an empty one it formats the name and id pairs and pipes them
through `sort`, `awk \'{print \$2}\'` and `head -n1`, in that order, every shell
metacharacter of that branch being preceded by a backslash. -/
theorem dockerExecCmd_tokens (taskArn containerName command : String) :
    dockerExecCmd taskArn containerName command =
      ["docker", "exec", "-i",
       "$\\(" ++
         (if containerName = "" then
            "docker ps --filter label=com.amazonaws.ecs.task-arn=" ++ taskArn ++
              " --format \\\x27\x7b\x7b.Label \\\"com.amazonaws.ecs.container-name\\\"\x7d\x7d \x7b\x7b.ID\x7d\x7d\\\x27" ++
              " \\| sort \\| awk \\\x27\x7bprint \\$2\x7d\\\x27 \\| head -n1"
          else
            "docker ps --filter label=com.amazonaws.ecs.task-arn=" ++ taskArn ++
              " --filter label=com.amazonaws.ecs.container-name=" ++ containerName ++
              " --format \x27\x7b\x7b.ID\x7d\x7d\x27") ++
         "\\)",
       command] := by
  unfold dockerExecCmd
  by_cases h : containerName = ""
  · subst h
    have h0 : ¬ ("".length > 0) := by decide
    simp only [h0, stringsJoin, String.intercalate, String.intercalate.go, if_true, if_false]
    refine congrArg (fun t => ["docker", "exec", "-i", t, command]) (String.ext ?_)
    simp only [String.data_append, List.append_assoc]
    rfl
  · have hpos : containerName.length > 0 := (length_pos_iff_ne_empty _).mpr h
    simp only [hpos, h, if_true, if_false, stringsJoin, String.intercalate, String.intercalate.go]
    refine congrArg (fun t => ["docker", "exec", "-i", t, command]) (String.ext ?_)
    simp only [String.data_append, List.append_assoc]
    rfl

/-- C6: `getTask` returns the error made with `errors.New` exactly when both
`service` and `taskId` are empty, and in that case it has issued no `ListTasks`
and no `DescribeTasks` call and has left the world state untouched. -/
theorem getTask_invalidInput_iff {σ : Type} (api : Ecs σ) (s : σ)
    (cluster service taskId : String) :
    ((getTask api s cluster service taskId).outcome =
        .returned (.error (.new "must provide at least one of ecs service or task id")) ↔
      service = "" ∧ taskId = "") ∧
    (getTask api s cluster "" "").calls = [] ∧
    (getTask api s cluster "" "").state = s := by
  have hdesc : ∀ (s' : σ) (calls : List Call) (t : String),
      (getTask.describe api s' calls cluster t).outcome ≠
        .returned (.error (.new "must provide at least one of ecs service or task id")) := by
    intro s' calls t
    unfold getTask.describe
    rcases hr : api.DescribeTasks s' cluster [t] with ⟨r, s''⟩
    rcases r with err | tasks
    · simp
    · cases tasks <;> simp
  refine ⟨?_, ?_, ?_⟩
  · by_cases hs : service = ""
    · by_cases ht : taskId = ""
      · subst hs
        subst ht
        simp [getTask]
      · have hlen : ¬ taskId.length = 0 := by
          have := (length_pos_iff_ne_empty taskId).mpr ht
          omega
        subst hs
        have h0 : ¬ ("".length > 0) := by decide
        simp only [getTask, h0, hlen, if_false, ht, and_false, iff_false]
        exact hdesc _ _ _
    · have hpos : service.length > 0 := (length_pos_iff_ne_empty service).mpr hs
      simp only [getTask, hpos, if_true, hs, false_and, iff_false]
      rcases hr : api.ListTasks s cluster service with ⟨r, s'⟩
      rcases r with err | arns
      · simp
      · exact hdesc _ _ _
  · simp [getTask]
  · simp [getTask]

/-- C7: on an oracle whose lists and descriptions are empty, `getTask` does not
return a NotFound error.  For a service without tasks it asks `DescribeTasks`
for the sentinel id `z` and then panics on `resp.Tasks[0]`; for a task id that
matches nothing it panics on `resp.Tasks[0]` as well. -/
theorem getTask_empty_result_panics :
    (getTask emptyEcs () "default" "web" "").outcome = .panicked "index out of range" ∧
    (getTask emptyEcs () "default" "web" "").calls =
      [.listTasks "default" "web", .describeTasks "default" ["z"]] ∧
    (getTask emptyEcs () "default" "" "0a1b").outcome = .panicked "index out of range" ∧
    (getTask emptyEcs () "default" "" "0a1b").calls = [.describeTasks "default" ["0a1b"]] := by
  refine ⟨?_, ?_, ?_, ?_⟩ <;> rfl

theorem scan_spec (l : List String) :
    ∀ init : String,
      (l.foldl (fun taskId task => if task < taskId then task else taskId) init = init ∨
        l.foldl (fun taskId task => if task < taskId then task else taskId) init ∈ l) ∧
      l.foldl (fun taskId task => if task < taskId then task else taskId) init ≤ init ∧
      ∀ b ∈ l, l.foldl (fun taskId task => if task < taskId then task else taskId) init ≤ b := by
  induction l with
  | nil =>
    intro init
    simp
  | cons a l ih =>
    intro init
    simp only [List.foldl_cons]
    obtain ⟨hmem, hle, hall⟩ := ih (if a < init then a else init)
    by_cases h : a < init
    · simp only [h, if_true] at hmem hle hall ⊢
      refine ⟨Or.inr ?_, le_trans hle (le_of_lt h), ?_⟩
      · rcases hmem with hm | hm
        · exact List.mem_cons.mpr (Or.inl hm)
        · exact List.mem_cons.mpr (Or.inr hm)
      · intro b hb
        rcases List.mem_cons.mp hb with hb | hb
        · subst hb
          exact hle
        · exact hall b hb
    · simp only [h, if_false] at hmem hle hall ⊢
      refine ⟨?_, hle, ?_⟩
      · rcases hmem with hm | hm
        · exact Or.inl hm
        · exact Or.inr (List.mem_cons.mpr (Or.inr hm))
      · intro b hb
        rcases List.mem_cons.mp hb with hb | hb
        · subst hb
          exact le_trans hle (not_lt.mp h)
        · exact hall b hb

/-- Below the sentinel the scan of `getTask` is right: when some listed ARN is
smaller than `z`, the selected id is a listed ARN and no listed ARN is smaller. -/
theorem selectTaskId_smallest (l : List String) (a : String) (ha : a ∈ l) (hlt : a < "z") :
    selectTaskId l ∈ l ∧ ∀ b ∈ l, selectTaskId l ≤ b := by
  obtain ⟨hmem, _, hall⟩ := scan_spec l "z"
  refine ⟨?_, hall⟩
  rcases hmem with hm | hm
  · have h1 : selectTaskId l ≤ a := hall a ha
    have h2 : selectTaskId l = "z" := hm
    rw [h2] at h1
    exact absurd hlt (not_lt.mpr h1)
  · exact hm

/-- The scan of `getTask` depends on the set of listed ARNs only, not on their
order or multiplicity. -/
theorem selectTaskId_of_same_set (l l' : List String) (h : ∀ x, x ∈ l ↔ x ∈ l') :
    selectTaskId l = selectTaskId l' := by
  obtain ⟨hmem, hle, hall⟩ := scan_spec l "z"
  obtain ⟨hmem', hle', hall'⟩ := scan_spec l' "z"
  apply le_antisymm
  · rcases hmem' with hm | hm
    · exact le_of_le_of_eq hle hm.symm
    · exact hall _ ((h _).mpr hm)
  · rcases hmem with hm | hm
    · exact le_of_le_of_eq hle' hm.symm
    · exact hall' _ ((h _).mp hm)

/-- Every string that starts with `arn:` is below the sentinel `z`. -/
theorem arn_lt_sentinel (rest : String) : "arn:" ++ rest < "z" := by
  rw [String.lt_iff_toList_lt]
  have hc : 'a' < 'z' := by decide
  have hl : ("arn:" ++ rest).toList = 'a' :: ('r' :: 'n' :: ':' :: rest.data) := by
    simp only [String.toList, String.data_append]
    rfl
  rw [hl, show "z".toList = ['z'] from rfl]
  exact List.Lex.rel hc

theorem getTask_calls_of_list {σ : Type} (api : Ecs σ) (s s' : σ)
    (cluster service taskId : String) (arns : List String) (hservice : service ≠ "")
    (hlist : api.ListTasks s cluster service = (.ok arns, s')) :
    (getTask api s cluster service taskId).calls =
      [.listTasks cluster service, .describeTasks cluster [selectTaskId arns]] := by
  have hpos : service.length > 0 := (length_pos_iff_ne_empty service).mpr hservice
  simp only [getTask, hpos, if_true, hlist, getTask.describe]
  rcases api.DescribeTasks s' cluster [selectTaskId arns] with ⟨r, s''⟩
  rcases r with err | tasks
  · rfl
  · cases tasks <;> rfl

/-- C1 (as stated, refuted): for the non-empty list `zz`, `zy` of arbitrary
strings the id `getTask` passes to `DescribeTasks` is the sentinel `z`, which is
not in the list, and not the smallest listed string `zy`. -/
theorem getTask_arbitrary_strings_counterexample :
    (getTask (listingEcs ["zz", "zy"]) () "default" "web" "").calls =
      [.listTasks "default" "web", .describeTasks "default" ["z"]] ∧
    "z" ∉ ["zz", "zy"] ∧
    ¬ (selectTaskId ["zz", "zy"] ∈ ["zz", "zy"] ∧
      ∀ b ∈ ["zz", "zy"], selectTaskId ["zz", "zy"] ≤ b) := by
  have h1 : ¬ ("zz" < "z") := by
    rw [String.lt_iff_toList_lt]
    decide
  have h2 : ¬ ("zy" < "z") := by
    rw [String.lt_iff_toList_lt]
    decide
  have hsel : selectTaskId ["zz", "zy"] = "z" := by
    simp only [selectTaskId, List.foldl, h1, h2, if_false]
  have hnot : "z" ∉ ["zz", "zy"] := by decide
  refine ⟨?_, hnot, ?_⟩
  · rw [getTask_calls_of_list (listingEcs ["zz", "zy"]) () () "default" "web" "" ["zz", "zy"]
      (by decide) rfl, hsel]
  · rw [hsel]
    exact fun h => hnot h.1

/-- C1 (amended): in `getTask`, when `service` is non-empty and `ListTasks`
answers a list of task ARNs with at least one entry below `z` (every ARN starts
with `arn:` and is below `z`), exactly two calls are made, the second being
`DescribeTasks` for one id; that id is in the list and no listed ARN is smaller;
it is the same for every list with the same set of entries, whatever the order.
The `taskId` argument plays no part. -/
theorem getTask_selects_smallest_arn {σ : Type} (api : Ecs σ) (s s' : σ)
    (cluster service taskId : String) (arns : List String) (a : String)
    (hservice : service ≠ "")
    (hlist : api.ListTasks s cluster service = (.ok arns, s'))
    (ha : a ∈ arns) (hlt : a < "z") :
    (getTask api s cluster service taskId).calls =
      [.listTasks cluster service, .describeTasks cluster [selectTaskId arns]] ∧
    selectTaskId arns ∈ arns ∧
    (∀ b ∈ arns, selectTaskId arns ≤ b) ∧
    ∀ arns' : List String, (∀ x, x ∈ arns ↔ x ∈ arns') →
      selectTaskId arns' = selectTaskId arns := by
  obtain ⟨hmem, hmin⟩ := selectTaskId_smallest arns a ha hlt
  exact ⟨getTask_calls_of_list api s s' cluster service taskId arns hservice hlist, hmem, hmin,
    fun arns' h => (selectTaskId_of_same_set arns arns' h).symm⟩

theorem getTask_selects_smallest_arn_witness :
    (getTask (listingEcs sampleArns) () "default" "web" "").calls =
      [.listTasks "default" "web", .describeTasks "default" [selectTaskId sampleArns]] ∧
    selectTaskId sampleArns ∈ sampleArns ∧
    (∀ b ∈ sampleArns, selectTaskId sampleArns ≤ b) ∧
    ∀ arns' : List String, (∀ x, x ∈ sampleArns ↔ x ∈ arns') →
      selectTaskId arns' = selectTaskId sampleArns :=
  getTask_selects_smallest_arn (listingEcs sampleArns) () () "default" "web" "" sampleArns
    "arn:aws:ecs:us-east-1:111111111111:task/a" (by decide) rfl (by decide)
    (arn_lt_sentinel "aws:ecs:us-east-1:111111111111:task/a")

/-- C2: the default of `--pipe` is `$SSH`, which is not a key of `wellKnown`
(the keys start with `@`).  With the default, `expandPipeCommand` never renders
`ssh ec2-user@<private ip> <command>`; it renders the text `$SSH`. -/
theorem expandPipeCommand_default_pipe_is_not_an_alias (c : String) (inst : Instance)
    (task : Task) :
    wellKnownIndex pipeFlagDefault = "" ∧
    expandPipeCommand pipeFlagDefault c inst task ≠
      .returned ("ssh ec2-user@" ++ inst.PrivateIpAddress ++ " " ++ c) ∧
    expandPipeCommand pipeFlagDefault c sampleInstance sampleTask = .returned "$SSH" := by
  have hres : resolvePipe pipeFlagDefault = "$SSH" := by decide
  have hrender : ∀ params : PipeParams, renderPipe "$SSH" params = .returned "$SSH" := by
    intro params
    rfl
  refine ⟨by decide, ?_, ?_⟩
  · unfold expandPipeCommand
    rw [hres]
    rcases hp : pipeParams c inst task with params | msg | _
    · simp only [hrender]
      intro h
      have hd := congrArg String.data (Outcome.returned.inj h)
      simp [String.data_append] at hd
    · simp
    · simp
  · unfold expandPipeCommand
    rw [hres]
    have hp : pipeParams c sampleInstance sampleTask =
        .returned
          { Command := c
            InstanceId := "i-00001234abcdef"
            InstanceArn := "arn:aws:ec2:us-east-1:111111111111:instance/i-00001234abcdef"
            PrivateIpAddress := "10.0.0.5"
            PublicIpAddress := "" } := by
      rfl
    rw [hp]
    exact hrender _

/-- C8: a template that refers to a field `PipeParams` does not have makes
`Execute` fail after the text before the action has been written; the error is
never read and `expandPipeCommand` returns the partial rendering.  A template
with an unclosed action does panic. -/
theorem expandPipeCommand_returns_partial_rendering (c : String) :
    expandPipeCommand "ssh \x7b\x7b.Bogus\x7d\x7d x" c sampleInstance sampleTask =
      .returned "ssh " ∧
    expandPipeCommand "ssh \x7b\x7b.Command" c sampleInstance sampleTask =
      .panicked "unclosed action" := by
  constructor <;> rfl

theorem splitOnChar_append_sep (sep : Char) (f rest : List Char) (hf : sep ∉ f) :
    splitOnChar sep (f ++ sep :: rest) = f :: splitOnChar sep rest := by
  induction f with
  | nil => simp [splitOnChar]
  | cons c f ih =>
    have hc : c ≠ sep := fun h => hf (by simp [h])
    have hf' : sep ∉ f := fun h => hf (by simp [h])
    have ih' := ih hf'
    simp only [List.cons_append, splitOnChar, hc, if_false]
    rw [show f.append (sep :: rest) = f ++ sep :: rest from rfl, ih']

theorem stringsSplitColon_fields (f0 f1 f2 r n rest : String)
    (h0 : ':' ∉ f0.data) (h1 : ':' ∉ f1.data) (h2 : ':' ∉ f2.data)
    (hr : ':' ∉ r.data) (hn : ':' ∉ n.data) :
    ∃ tail, stringsSplitColon
        (f0 ++ ":" ++ f1 ++ ":" ++ f2 ++ ":" ++ r ++ ":" ++ n ++ ":" ++ rest) =
      f0 :: f1 :: f2 :: r :: n :: tail := by
  refine ⟨(splitOnChar ':' rest.data).map String.mk, ?_⟩
  have hcolon : ":".data = [':'] := rfl
  simp only [stringsSplitColon, String.data_append, hcolon, List.append_assoc,
    List.singleton_append, List.cons_append, List.nil_append]
  rw [splitOnChar_append_sep _ _ _ h0, splitOnChar_append_sep _ _ _ h1,
    splitOnChar_append_sep _ _ _ h2, splitOnChar_append_sep _ _ _ hr,
    splitOnChar_append_sep _ _ _ hn]
  simp only [List.map]

theorem pipeParams_of_fields (c : String) (inst : Instance) (task : Task)
    (region accountId : String)
    (hr : (stringsSplitColon task.ContainerInstanceArn)[3]? = some region)
    (ha : (stringsSplitColon task.ContainerInstanceArn)[4]? = some accountId) :
    pipeParams c inst task = .returned
      { Command := c
        InstanceId := inst.InstanceId
        InstanceArn :=
          "arn:aws:ec2:" ++ region ++ ":" ++ accountId ++ ":instance/" ++ inst.InstanceId
        PrivateIpAddress := inst.PrivateIpAddress
        PublicIpAddress := inst.PublicIpAddress.getD "" } := by
  unfold pipeParams
  simp only [hr, ha]
  cases inst.PublicIpAddress <;> rfl

/-- C5: for a container-instance ARN whose first five colon-separated fields are
`f0`, `f1`, `f2`, region `r` and account `n` (a sixth field follows),
`expandPipeCommand` builds its parameters without an indexing panic, their
`InstanceArn` is `arn:aws:ec2:r:n:instance/<instance id>`, and the template
`{{.InstanceArn}}` renders exactly that string. -/
theorem expandPipeCommand_instanceArn (f0 f1 f2 r n f5 c : String) (inst : Instance)
    (task : Task)
    (h0 : ':' ∉ f0.data) (h1 : ':' ∉ f1.data) (h2 : ':' ∉ f2.data)
    (hr : ':' ∉ r.data) (hn : ':' ∉ n.data)
    (harn : task.ContainerInstanceArn =
      f0 ++ ":" ++ f1 ++ ":" ++ f2 ++ ":" ++ r ++ ":" ++ n ++ ":" ++ f5) :
    (∃ params, pipeParams c inst task = .returned params ∧
      params.InstanceArn = "arn:aws:ec2:" ++ r ++ ":" ++ n ++ ":instance/" ++ inst.InstanceId) ∧
    expandPipeCommand "\x7b\x7b.InstanceArn\x7d\x7d" c inst task =
      .returned ("arn:aws:ec2:" ++ r ++ ":" ++ n ++ ":instance/" ++ inst.InstanceId) := by
  obtain ⟨tail, hsplit⟩ := stringsSplitColon_fields f0 f1 f2 r n f5 h0 h1 h2 hr hn
  rw [← harn] at hsplit
  have hp := pipeParams_of_fields c inst task r n (by rw [hsplit]; simp) (by rw [hsplit]; simp)
  refine ⟨⟨_, hp, rfl⟩, ?_⟩
  have hres : resolvePipe "\x7b\x7b.InstanceArn\x7d\x7d" = "\x7b\x7b.InstanceArn\x7d\x7d" := by
    decide
  unfold expandPipeCommand
  rw [hres, hp]
  have hparse : templateParse "\x7b\x7b.InstanceArn\x7d\x7d" = .tree [.field "InstanceArn"] := by
    decide
  simp only [renderPipe, renderParsed, hparse, templateExecute, PipeParams.lookup, if_true, String.append_empty]

theorem expandPipeCommand_instanceArn_witness :
    (∃ params, pipeParams "docker exec -i x bash" sampleInstance sampleTask = .returned params ∧
      params.InstanceArn =
        "arn:aws:ec2:" ++ "us-east-1" ++ ":" ++ "111111111111" ++ ":instance/" ++
          sampleInstance.InstanceId) ∧
    expandPipeCommand "\x7b\x7b.InstanceArn\x7d\x7d" "docker exec -i x bash" sampleInstance
        sampleTask =
      .returned ("arn:aws:ec2:" ++ "us-east-1" ++ ":" ++ "111111111111" ++ ":instance/" ++
        sampleInstance.InstanceId) :=
  expandPipeCommand_instanceArn "arn" "aws" "ecs" "us-east-1" "111111111111"
    "container-instance/9f8e" "docker exec -i x bash" sampleInstance sampleTask
    (by decide) (by decide) (by decide) (by decide) (by decide) (by decide)

/-- C3: when the container-instance ARN has a fourth field `region` and a fifth
field `accountId`, `expandPipeCommand` renders `@SSH` as
`ssh ec2-user@<private ip> <c>`, `@LKP` as `ssh ec2-user@<derived arn> <c>` and
`@GOSSM` as `gossm -q -i <instance id> -- <c>`, the command `c` being inserted
as it is; a pipe string that is none of the three keys is rendered as the
template itself. -/
theorem expandPipeCommand_wellKnown (c : String) (inst : Instance) (task : Task)
    (region accountId : String)
    (hr : (stringsSplitColon task.ContainerInstanceArn)[3]? = some region)
    (ha : (stringsSplitColon task.ContainerInstanceArn)[4]? = some accountId) :
    expandPipeCommand "@SSH" c inst task =
      .returned ("ssh ec2-user@" ++ inst.PrivateIpAddress ++ " " ++ c) ∧
    expandPipeCommand "@LKP" c inst task =
      .returned ("ssh ec2-user@" ++
        ("arn:aws:ec2:" ++ region ++ ":" ++ accountId ++ ":instance/" ++ inst.InstanceId) ++
        " " ++ c) ∧
    expandPipeCommand "@GOSSM" c inst task =
      .returned ("gossm -q -i " ++ inst.InstanceId ++ " -- " ++ c) ∧
    ∀ pipe params, pipe ∉ ["@SSH", "@LKP", "@GOSSM"] →
      pipeParams c inst task = .returned params →
      expandPipeCommand pipe c inst task = renderPipe pipe params := by
  have hp := pipeParams_of_fields c inst task region accountId hr ha
  have hssh : resolvePipe "@SSH" =
      "ssh ec2-user@\x7b\x7b.PrivateIpAddress\x7d\x7d \x7b\x7b.Command\x7d\x7d" := by decide
  have hlkp : resolvePipe "@LKP" =
      "ssh ec2-user@\x7b\x7b.InstanceArn\x7d\x7d \x7b\x7b.Command\x7d\x7d" := by decide
  have hgossm : resolvePipe "@GOSSM" =
      "gossm -q -i \x7b\x7b.InstanceId\x7d\x7d -- \x7b\x7b.Command\x7d\x7d" := by decide
  have pssh : templateParse
      "ssh ec2-user@\x7b\x7b.PrivateIpAddress\x7d\x7d \x7b\x7b.Command\x7d\x7d" =
      .tree [.text "ssh ec2-user@".data, .field "PrivateIpAddress", .text " ".data,
        .field "Command"] := by decide
  have plkp : templateParse
      "ssh ec2-user@\x7b\x7b.InstanceArn\x7d\x7d \x7b\x7b.Command\x7d\x7d" =
      .tree [.text "ssh ec2-user@".data, .field "InstanceArn", .text " ".data,
        .field "Command"] := by decide
  have pgossm : templateParse
      "gossm -q -i \x7b\x7b.InstanceId\x7d\x7d -- \x7b\x7b.Command\x7d\x7d" =
      .tree [.text "gossm -q -i ".data, .field "InstanceId", .text " -- ".data,
        .field "Command"] := by decide
  have e1 : ("InstanceId" = "InstanceArn") = False := by decide
  have e2 : ("PrivateIpAddress" = "InstanceArn") = False := by decide
  have e3 : ("PrivateIpAddress" = "InstanceId") = False := by decide
  have e4 : ("Command" = "InstanceArn") = False := by decide
  have e5 : ("Command" = "InstanceId") = False := by decide
  have e6 : ("Command" = "PrivateIpAddress") = False := by decide
  have e7 : ("Command" = "PublicIpAddress") = False := by decide
  refine ⟨?_, ?_, ?_, ?_⟩
  · unfold expandPipeCommand
    rw [hssh, hp]
    simp only [renderPipe, renderParsed, pssh, templateExecute, PipeParams.lookup, e2, e3, e4, e5, e6, e7,
      if_true, if_false, String.append_empty, String.append_assoc]
  · unfold expandPipeCommand
    rw [hlkp, hp]
    simp only [renderPipe, renderParsed, plkp, templateExecute, PipeParams.lookup, e4, e5, e6, e7,
      if_true, if_false, String.append_empty, String.append_assoc]
  · unfold expandPipeCommand
    rw [hgossm, hp]
    simp only [renderPipe, renderParsed, pgossm, templateExecute, PipeParams.lookup, e1, e4, e5, e6, e7,
      if_true, if_false, String.append_empty, String.append_assoc]
  · intro pipe params hpipe hparams
    have hne1 : ¬ pipe = "@SSH" := fun h => hpipe (by simp [h])
    have hne2 : ¬ pipe = "@LKP" := fun h => hpipe (by simp [h])
    have hne3 : ¬ pipe = "@GOSSM" := fun h => hpipe (by simp [h])
    have b1 : (pipe == "@SSH") = false := by simpa using hne1
    have b2 : (pipe == "@LKP") = false := by simpa using hne2
    have b3 : (pipe == "@GOSSM") = false := by simpa using hne3
    have hidx : wellKnownIndex pipe = "" := by
      simp only [wellKnownIndex, wellKnown, List.lookup, b1, b2, b3, Option.getD]
    have hres : resolvePipe pipe = pipe := by
      have h0 : ¬ ("".length > 0) := by decide
      simp only [resolvePipe, hidx, h0, if_false]
    unfold expandPipeCommand
    rw [hres, hparams]

theorem expandPipeCommand_wellKnown_witness :
    expandPipeCommand "@SSH" "docker exec -i x bash" sampleInstance sampleTask =
      .returned ("ssh ec2-user@" ++ sampleInstance.PrivateIpAddress ++ " " ++
        "docker exec -i x bash") ∧
    expandPipeCommand "@LKP" "docker exec -i x bash" sampleInstance sampleTask =
      .returned ("ssh ec2-user@" ++
        ("arn:aws:ec2:" ++ "us-east-1" ++ ":" ++ "111111111111" ++ ":instance/" ++
          sampleInstance.InstanceId) ++
        " " ++ "docker exec -i x bash") ∧
    expandPipeCommand "@GOSSM" "docker exec -i x bash" sampleInstance sampleTask =
      .returned ("gossm -q -i " ++ sampleInstance.InstanceId ++ " -- " ++
        "docker exec -i x bash") ∧
    ∀ pipe params, pipe ∉ ["@SSH", "@LKP", "@GOSSM"] →
      pipeParams "docker exec -i x bash" sampleInstance sampleTask = .returned params →
      expandPipeCommand pipe "docker exec -i x bash" sampleInstance sampleTask =
        renderPipe pipe params :=
  expandPipeCommand_wellKnown "docker exec -i x bash" sampleInstance sampleTask "us-east-1"
    "111111111111" (by decide) (by decide)

theorem highIndex_eq_min (offset len : Nat) :
    describeAllTasks.highIndex offset len = min (offset + 100) len := by
  unfold describeAllTasks.highIndex
  by_cases h : offset + 100 > len
  · simp only [h, if_true]
    omega
  · simp only [h, if_false]
    omega

theorem loop_done {σ : Type} (api : Ecs σ) (cluster : String) (arns : List String)
    (allTasks : List Task) (calls : List Call) (s : σ) :
    describeAllTasks.loop api cluster arns arns.length allTasks calls s =
      ⟨.returned (.ok allTasks), calls, s⟩ := by
  rw [describeAllTasks.loop]
  have h : arns.length = describeAllTasks.highIndex arns.length arns.length := by
    rw [highIndex_eq_min]
    omega
  rw [if_pos h]

theorem loop_step {σ : Type} (api : Ecs σ) (cluster : String) (arns : List String)
    (offset : Nat) (allTasks : List Task) (calls : List Call) (s : σ)
    (hlt : offset < arns.length) :
    describeAllTasks.loop api cluster arns offset allTasks calls s =
      match api.DescribeTasks s cluster
          ((arns.take (min (offset + 100) arns.length)).drop offset) with
      | (.error err, s') =>
        ⟨.returned (.error (.library err)),
          calls ++ [.describeTasks cluster
            ((arns.take (min (offset + 100) arns.length)).drop offset)], s'⟩
      | (.ok tasks, s') =>
        describeAllTasks.loop api cluster arns (min (offset + 100) arns.length)
          (allTasks ++ tasks)
          (calls ++ [.describeTasks cluster
            ((arns.take (min (offset + 100) arns.length)).drop offset)]) s' := by
  rw [describeAllTasks.loop]
  have h1 : ¬ offset = describeAllTasks.highIndex offset arns.length := by
    rw [highIndex_eq_min]
    omega
  have h2 : ¬ describeAllTasks.highIndex offset arns.length < offset := by
    rw [highIndex_eq_min]
    omega
  rw [if_neg h1, if_neg h2]
  simp only [highIndex_eq_min]

theorem page_append_drop (arns : List String) (offset hi : Nat) (h1 : offset ≤ hi)
    (h2 : hi ≤ arns.length) :
    (arns.take hi).drop offset ++ arns.drop hi = arns.drop offset := by
  have hlen : offset ≤ (arns.take hi).length := by
    rw [List.length_take]
    omega
  rw [← List.drop_append_of_le_length hlen, List.take_append_drop]

theorem loop_batches {σ : Type} (api : Ecs σ) (cluster : String) (arns : List String) :
    ∀ (m offset : Nat) (allTasks : List Task) (calls : List Call) (s : σ),
      arns.length - offset = m → offset ≤ arns.length →
      (∀ e, (describeAllTasks.loop api cluster arns offset allTasks calls s).outcome ≠
        .returned (.error e)) →
      ∃ batches : List (List String),
        (describeAllTasks.loop api cluster arns offset allTasks calls s).calls =
          calls ++ batches.map (Call.describeTasks cluster) ∧
        batches.length = (arns.length - offset + 99) / 100 ∧
        (∀ b ∈ batches, 1 ≤ b.length ∧ b.length ≤ 100) ∧
        batches.flatten = arns.drop offset ∧
        (describeAllTasks.loop api cluster arns offset allTasks calls s).outcome =
          .returned (.ok (allTasks ++ (describeResponses api cluster s batches).flatten)) := by
  intro m
  induction m using Nat.strong_induction_on with
  | _ m ih =>
    intro offset allTasks calls s hm hle hne
    by_cases hlt : offset < arns.length
    · rw [loop_step api cluster arns offset allTasks calls s hlt] at hne ⊢
      rcases hr : api.DescribeTasks s cluster
          ((arns.take (min (offset + 100) arns.length)).drop offset) with ⟨r, s'⟩
      rw [hr] at hne
      rcases r with err | tasks
      · exact absurd rfl (hne (.library err))
      · simp only at hne ⊢
        have hhi : min (offset + 100) arns.length ≤ arns.length := Nat.min_le_right _ _
        obtain ⟨batches, hcalls, hlen, hsizes, hjoin, hout⟩ :=
          ih (arns.length - min (offset + 100) arns.length) (by omega)
            (min (offset + 100) arns.length) (allTasks ++ tasks)
            (calls ++ [.describeTasks cluster
              ((arns.take (min (offset + 100) arns.length)).drop offset)]) s' rfl hhi hne
        refine ⟨(arns.take (min (offset + 100) arns.length)).drop offset :: batches,
          ?_, ?_, ?_, ?_, ?_⟩
        · rw [hcalls]
          simp
        · rw [List.length_cons, hlen]
          omega
        · intro b hb
          rcases List.mem_cons.mp hb with hb | hb
          · subst hb
            rw [List.length_drop, List.length_take]
            omega
          · exact hsizes b hb
        · rw [List.flatten_cons, hjoin]
          exact page_append_drop arns offset _ (by omega) hhi
        · rw [hout]
          simp only [describeResponses, hr, List.flatten_cons, List.append_assoc]
    · have heq : offset = arns.length := by omega
      subst heq
      rw [loop_done]
      refine ⟨[], ?_, ?_, ?_, ?_, ?_⟩
      · simp
      · simp
      · intro b hb
        cases hb
      · simp
      · simp [describeResponses]

theorem loop_no_error {σ : Type} (api : Ecs σ) (cluster : String) (arns : List String)
    (hok : ∀ (s : σ) (batch : List String),
      ∃ tasks, (api.DescribeTasks s cluster batch).1 = .ok tasks) :
    ∀ (m offset : Nat) (allTasks : List Task) (calls : List Call) (s : σ),
      arns.length - offset = m → offset ≤ arns.length →
      ∀ e, (describeAllTasks.loop api cluster arns offset allTasks calls s).outcome ≠
        .returned (.error e) := by
  intro m
  induction m using Nat.strong_induction_on with
  | _ m ih =>
    intro offset allTasks calls s hm hle e
    by_cases hlt : offset < arns.length
    · rw [loop_step api cluster arns offset allTasks calls s hlt]
      obtain ⟨tasks, htasks⟩ :=
        hok s ((arns.take (min (offset + 100) arns.length)).drop offset)
      rcases hr : api.DescribeTasks s cluster
          ((arns.take (min (offset + 100) arns.length)).drop offset) with ⟨r, s'⟩
      rw [hr] at htasks
      simp only at htasks
      subst htasks
      simp only
      exact ih (arns.length - min (offset + 100) arns.length) (by omega) _ _ _ _ rfl
        (Nat.min_le_right _ _) e
    · have heq : offset = arns.length := by omega
      subst heq
      rw [loop_done]
      simp

/-- C10: `describeAllTasks` is total.  When its run does not end in an error
(lines 63-66: no `DescribeTasks` call returned one) it has issued exactly
`(n + 99) / 100`, the ceiling of `n / 100`, calls for `n` ARNs, each batch holds
between 1 and 100 ARNs, the batches concatenated in call order are the input
list, and the result is the concatenation of the per-call responses.  For the
empty list it makes no call and returns the empty list. -/
theorem describeAllTasks_batches {σ : Type} (api : Ecs σ) (s : σ) (cluster : String)
    (arns : List String)
    (hok : ∀ e, (describeAllTasks api s cluster arns).outcome ≠ .returned (.error e)) :
    (∃ batches : List (List String),
      (describeAllTasks api s cluster arns).calls =
        batches.map (Call.describeTasks cluster) ∧
      batches.length = (arns.length + 99) / 100 ∧
      (∀ b ∈ batches, 1 ≤ b.length ∧ b.length ≤ 100) ∧
      batches.flatten = arns ∧
      (describeAllTasks api s cluster arns).outcome =
        .returned (.ok (describeResponses api cluster s batches).flatten)) ∧
    (describeAllTasks api s cluster []).calls = [] ∧
    (describeAllTasks api s cluster []).outcome = .returned (.ok []) := by
  refine ⟨?_, ?_, ?_⟩
  · obtain ⟨batches, hcalls, hlen, hsizes, hflat, hout⟩ :=
      loop_batches api cluster arns arns.length 0 [] [] s rfl (Nat.zero_le _) hok
    refine ⟨batches, ?_, ?_, hsizes, ?_, ?_⟩
    · simpa [describeAllTasks] using hcalls
    · simpa using hlen
    · simpa using hflat
    · simpa [describeAllTasks] using hout
  · exact congrArg Run.calls (loop_done api cluster [] [] [] s)
  · exact congrArg Run.outcome (loop_done api cluster [] [] [] s)

theorem describeAllTasks_batches_witness :
    (∃ batches : List (List String),
      (describeAllTasks (listingEcs []) () "default" (List.replicate 250 "arn")).calls =
        batches.map (Call.describeTasks "default") ∧
      batches.length = ((List.replicate 250 "arn").length + 99) / 100 ∧
      (∀ b ∈ batches, 1 ≤ b.length ∧ b.length ≤ 100) ∧
      batches.flatten = List.replicate 250 "arn" ∧
      (describeAllTasks (listingEcs []) () "default" (List.replicate 250 "arn")).outcome =
        .returned (.ok (describeResponses (listingEcs []) "default" () batches).flatten)) ∧
    (describeAllTasks (listingEcs []) () "default" []).calls = [] ∧
    (describeAllTasks (listingEcs []) () "default" []).outcome = .returned (.ok []) :=
  describeAllTasks_batches (listingEcs []) () "default" (List.replicate 250 "arn")
    (loop_no_error (listingEcs []) "default" (List.replicate 250 "arn")
      (fun _ batch => ⟨batch.map taskOfArn, rfl⟩) _ 0 [] [] () rfl (Nat.zero_le _))

theorem parseFrom_text_cons (c : Char) (rest : List Char) (hc : c ≠ '{') :
    parseFrom none (c :: rest) = (parseFrom none rest).pushChar c := by
  cases rest with
  | nil => simp [parseFrom]
  | cons d rest => simp [parseFrom, hc]

theorem renderParsed_pushChar (params : PipeParams) (c : Char) (p : Parsed) :
    renderParsed params (p.pushChar c) = (renderParsed params p).prepend (String.mk [c]) := by
  rcases p with ns | msg | _
  · rcases ns with _ | ⟨n, ns⟩
    · rfl
    · cases n with
      | text s =>
        simp only [Parsed.pushChar, renderParsed, templateExecute, Outcome.prepend]
        rw [← String.append_assoc]
        rfl
      | field f => rfl
  · rfl
  · rfl

theorem renderParsed_pushField (params : PipeParams) (f v : String) (p : Parsed)
    (hv : params.lookup f = some v) :
    renderParsed params (p.pushField f) = (renderParsed params p).prepend v := by
  rcases p with ns | msg | _
  · simp only [Parsed.pushField, renderParsed, templateExecute, hv, Outcome.prepend]
  · rfl
  · rfl

theorem prepend_prepend (a b : String) (o : Outcome String) :
    (o.prepend b).prepend a = o.prepend (a ++ b) := by
  cases o <;> simp [Outcome.prepend, String.append_assoc]

theorem prepend_empty (o : Outcome String) : o.prepend "" = o := by
  cases o <;> simp [Outcome.prepend]

theorem renderParsed_text (params : PipeParams) (s rest : List Char) (hs : '{' ∉ s) :
    renderParsed params (parseFrom none (s ++ rest)) =
      (renderParsed params (parseFrom none rest)).prepend (String.mk s) := by
  induction s with
  | nil =>
    rw [List.nil_append, show String.mk [] = "" from rfl, prepend_empty]
  | cons c s ih =>
    have hc : c ≠ '{' := fun h => hs (by simp [h])
    have hs' : '{' ∉ s := fun h => hs (by simp [h])
    rw [List.cons_append, parseFrom_text_cons c _ hc, renderParsed_pushChar, ih hs',
      prepend_prepend]
    rfl

theorem parseFrom_field (f : String)
    (hf : f ∈ ["InstanceArn", "InstanceId", "PrivateIpAddress", "PublicIpAddress", "Command"])
    (rest : List Char) :
    parseFrom none ((Node.field f).source ++ rest) = (parseFrom none rest).pushField f := by
  simp only [List.mem_cons, List.mem_singleton, List.not_mem_nil, or_false] at hf
  rcases hf with h | h | h | h | h <;> subst h <;> rfl

theorem lookup_expected (params : PipeParams) (f : String)
    (hf : f ∈ ["InstanceArn", "InstanceId", "PrivateIpAddress", "PublicIpAddress", "Command"]) :
    params.lookup f = some ((Node.field f).expected params) := by
  simp only [List.mem_cons, List.mem_singleton, List.not_mem_nil, or_false] at hf
  rcases hf with h | h | h | h | h <;> subst h <;> rfl

theorem renderParsed_templateSource (params : PipeParams) (nodes : List Node)
    (hplain : ∀ n ∈ nodes, n.plain = true) :
    renderParsed params (parseFrom none (templateSource nodes)) =
      .returned (expectedRendering params nodes) := by
  induction nodes with
  | nil => rfl
  | cons n ns ih =>
    have hn := hplain n (by simp)
    have ih' := ih (fun m hm => hplain m (by simp [hm]))
    cases n with
    | text s =>
      have hs : '{' ∉ s := by
        simpa [Node.plain] using hn
      simp only [templateSource, Node.source]
      rw [renderParsed_text params s _ hs, ih']
      rfl
    | field f =>
      have hf : f ∈ ["InstanceArn", "InstanceId", "PrivateIpAddress", "PublicIpAddress",
          "Command"] := by
        simpa [Node.plain] using hn
      simp only [templateSource]
      rw [parseFrom_field f hf, renderParsed_pushField params f _ _ (lookup_expected params f hf),
        ih']
      rfl

theorem resolvePipe_of_not_alias (pipe : String)
    (hpipe : pipe ∉ ["@SSH", "@LKP", "@GOSSM"]) : resolvePipe pipe = pipe := by
  have b1 : (pipe == "@SSH") = false := by
    simpa using fun h : pipe = "@SSH" => hpipe (by simp [h])
  have b2 : (pipe == "@LKP") = false := by
    simpa using fun h : pipe = "@LKP" => hpipe (by simp [h])
  have b3 : (pipe == "@GOSSM") = false := by
    simpa using fun h : pipe = "@GOSSM" => hpipe (by simp [h])
  have h0 : ¬ ("".length > 0) := by decide
  simp only [resolvePipe, wellKnownIndex, wellKnown, List.lookup, b1, b2, b3, Option.getD, h0,
    if_false]

/-- C9: take any template made of text without an opening brace and of the five
placeholders, that is not itself an alias, and any instance whose
container-instance ARN has a region and an account field.  `expandPipeCommand`
returns the template with every placeholder replaced by its value, where the
value of `{{.PublicIpAddress}}` is the empty string when the instance has no
public address and the address when it has one.  For every template whatever, an instance without
a public address gives exactly what the same instance with the empty public
address gives, so the missing address causes no failure. -/
theorem expandPipeCommand_publicIp_optional (nodes : List Node) (c : String)
    (inst : Instance) (task : Task) (region accountId : String)
    (hr : (stringsSplitColon task.ContainerInstanceArn)[3]? = some region)
    (ha : (stringsSplitColon task.ContainerInstanceArn)[4]? = some accountId)
    (hplain : ∀ n ∈ nodes, n.plain = true)
    (halias : String.mk (templateSource nodes) ∉ ["@SSH", "@LKP", "@GOSSM"]) :
    expandPipeCommand (String.mk (templateSource nodes)) c inst task =
      .returned (expectedRendering
        { Command := c
          InstanceId := inst.InstanceId
          InstanceArn :=
            "arn:aws:ec2:" ++ region ++ ":" ++ accountId ++ ":instance/" ++ inst.InstanceId
          PrivateIpAddress := inst.PrivateIpAddress
          PublicIpAddress :=
            match inst.PublicIpAddress with
            | none => ""
            | some ip => ip } nodes) ∧
    ∀ pipe : String,
      expandPipeCommand pipe c { inst with PublicIpAddress := none } task =
        expandPipeCommand pipe c { inst with PublicIpAddress := some "" } task := by
  refine ⟨?_, fun pipe => by simp only [expandPipeCommand, pipeParams]⟩
  have hp := pipeParams_of_fields c inst task region accountId hr ha
  have hpub : inst.PublicIpAddress.getD "" =
      (match inst.PublicIpAddress with
        | none => ""
        | some ip => ip) := by
    cases inst.PublicIpAddress <;> rfl
  rw [hpub] at hp
  unfold expandPipeCommand
  rw [resolvePipe_of_not_alias _ halias, hp]
  exact renderParsed_templateSource _ nodes hplain

theorem expandPipeCommand_publicIp_optional_witness :
    expandPipeCommand (String.mk (templateSource sampleNodes)) "docker exec -i x bash"
        sampleInstance sampleTask =
      .returned (expectedRendering
        { Command := "docker exec -i x bash"
          InstanceId := sampleInstance.InstanceId
          InstanceArn :=
            "arn:aws:ec2:" ++ "us-east-1" ++ ":" ++ "111111111111" ++ ":instance/" ++
              sampleInstance.InstanceId
          PrivateIpAddress := sampleInstance.PrivateIpAddress
          PublicIpAddress :=
            match sampleInstance.PublicIpAddress with
            | none => ""
            | some ip => ip } sampleNodes) ∧
    ∀ pipe : String,
      expandPipeCommand pipe "docker exec -i x bash"
          { sampleInstance with PublicIpAddress := none } sampleTask =
        expandPipeCommand pipe "docker exec -i x bash"
          { sampleInstance with PublicIpAddress := some "" } sampleTask :=
  expandPipeCommand_publicIp_optional sampleNodes "docker exec -i x bash" sampleInstance
    sampleTask "us-east-1" "111111111111" (by decide) (by decide) (by decide) (by decide)

end EcsExec
